import Mathlib

/-!
Verification of the task-queue / job-lifecycle subsystem and the
fallback asset-generation pipeline of the designer agent
(src/scripts/designer_agent.py).

The Python code is shallowly embedded as executable Lean definitions:

* the directory queue (class TaskQueue) becomes pure state passing over
  `QueueState`, whose four lists model the four partition directories
  (each entry is a filename paired with the file content);
* JSON task records become the structure `TaskRecord`; a file that does not
  parse is `FileContent.malformed`;
* fallible file operations return `Except QueueError`, and the
  catch-all exception handlers of the Python methods are translated as
  explicit wrappers that turn any error into a normal return;
* the network strategies of the pipeline are parameters of type
  `AssetRequest → Option String` (returning the saved asset path, or
  `none` when the strategy failed and its internal handler swallowed
  the exception, exactly as `generate_openai_image` and
  `generate_stable_diffusion_image` do);
* wall-clock time is an explicit `now : Nat` parameter
  (`time.time()` call sites); the measured `duration` result field and
  log output are omitted as pure observation.
-/

/-! ## Data model (section 3 of the spec, JSON task records) -/

/-- Epic payload of a task: the code reads `task['epic']['title']`,
`task['epic']['prompt']`, `task['epic']['role']` and `epic['id']`. -/
structure Epic where
  id : String
  title : String
  prompt : String
  role : String
deriving Repr, DecidableEq

/-- One produced asset descriptor, as appended by
`create_placeholder_assets` / `generate_ai_assets` (the latter also
records the prompt and the provider). -/
structure Asset where
  type : String
  path : String
  description : String
  prompt : Option String := none
  provider : Option String := none
deriving Repr, DecidableEq

/-- Return value of `DesignerAgent.process_task` (the measured
`duration` field is omitted: wall-clock observation only). -/
structure ProcessResult where
  success : Bool
  assets : List Asset := []
  error : Option String := none
deriving Repr, DecidableEq

/-- A task record as stored in a queue file.  The transition fields are
optional because the external producer only writes the initial ones;
`processingPath` is the extra field `dequeue` stores into the record. -/
structure TaskRecord where
  id : String
  epic : Epic
  status : String
  createdAt : Option Nat := none
  processedAt : Option Nat := none
  completedAt : Option Nat := none
  failedAt : Option Nat := none
  result : Option ProcessResult := none
  error : Option String := none
  processingPath : Option String := none
deriving Repr, DecidableEq

/-- Content of one task file: either a record that `json.load` parses,
or bytes that make it raise. -/
inductive FileContent where
  | malformed (raw : String)
  | task (t : TaskRecord)
deriving Repr, DecidableEq

/-- The directory queue: one list of (filename, content) per partition
directory, plus the queue root used to build path strings. -/
structure QueueState where
  queueDir : String
  pending : List (String × FileContent)
  processing : List (String × FileContent)
  completed : List (String × FileContent)
  failed : List (String × FileContent)
deriving Repr, DecidableEq

/-- Errors that the file operations inside the queue methods can raise
(FileNotFoundError from open/rename on a missing file, ValueError from
json.load on a malformed file).  All of them are caught by the
catch-all handlers of the queue methods. -/
inductive QueueError where
  | notFound
  | parseError
deriving Repr, DecidableEq

/-! ## Directory primitives -/

/-- Number of entries in a directory listing carrying a given filename
(a real directory holds at most one, but the model does not assume it:
the partition-uniqueness invariant is proved, not built in). -/
def countIn (name : String) : List (String × FileContent) → Nat
  | [] => 0
  | e :: rest => (if e.1 = name then 1 else 0) + countIn name rest

/-- Look a filename up in a directory listing. -/
def findFile (name : String) : List (String × FileContent) → Option FileContent
  | [] => none
  | e :: rest => if e.1 = name then some e.2 else findFile name rest

/-- Delete a filename from a directory listing
(`Path.unlink`, and the source half of `Path.rename`). -/
def removeFile (name : String) : List (String × FileContent) → List (String × FileContent)
  | [] => []
  | e :: rest => if e.1 = name then removeFile name rest else e :: removeFile name rest

/-- Write a file into a directory listing, replacing any file of the
same name (`open(path, 'w')`, and the target half of `Path.rename`,
both of which overwrite). -/
def fsWrite (l : List (String × FileContent)) (name : String) (c : FileContent) :
    List (String × FileContent) :=
  (name, c) :: removeFile name l

/-- How many of the four partition directories hold a file of the given
name (multiplicity included). -/
def partitionCount (s : QueueState) (name : String) : Nat :=
  countIn name s.pending + countIn name s.processing +
    countIn name s.completed + countIn name s.failed

/-- The partition invariant of section 3 of the spec: every filename is
visible in at most one partition directory, once. -/
def uniquePartitions (s : QueueState) : Prop :=
  ∀ name, partitionCount s name ≤ 1

/-! ## TaskQueue.dequeue -/

/-- Scan of the pending listing inside `TaskQueue.dequeue`: skip files
that fail to parse (inner `except` clause logs and continues), skip
tasks whose `epic.role` differs from the agent role, claim the first
match, stopping the scan.  Returns the claimed (filename, record) and
the pending entries that remain. -/
def dequeueGo (role : String) :
    List (String × FileContent) → Option (String × TaskRecord) × List (String × FileContent)
  | [] => (none, [])
  | (name, FileContent.malformed raw) :: rest =>
      ((dequeueGo role rest).1, (name, FileContent.malformed raw) :: (dequeueGo role rest).2)
  | (name, FileContent.task t) :: rest =>
      if t.epic.role = role then
        (some (name, t), rest)
      else
        ((dequeueGo role rest).1, (name, FileContent.task t) :: (dequeueGo role rest).2)

/-- The record as rewritten by `dequeue` after the rename:
`task['status'] = 'processing'`, `task['processedAt'] = time.time()`,
`task['processingPath'] = str(processing_path)`. -/
def claimRecord (t : TaskRecord) (now : Nat) (queueDir name : String) : TaskRecord :=
  { t with
    status := "processing"
    processedAt := some now
    processingPath := some (queueDir ++ "/processing/" ++ name) }

/-- `TaskQueue.dequeue`: claim the first pending task of the given role
by renaming its file into the processing directory, then rewrite the
file in place with the updated record, and return that record.  The
outer `except` clause makes the method return `None` instead of ever
raising, so the result type is a plain pair. -/
def dequeue (role : String) (now : Nat) (s : QueueState) : Option TaskRecord × QueueState :=
  match dequeueGo role s.pending with
  | (some (name, t), rest) =>
      let updated := claimRecord t now s.queueDir name
      (some updated,
        { s with
          pending := rest
          processing := fsWrite s.processing name (FileContent.task updated) })
  | (none, rest) => (none, { s with pending := rest })

/-! ## TaskQueue.complete_task and TaskQueue.fail_task -/

/-- Read and parse one task file (`open` + `json.load`):
FileNotFoundError when the name is absent, ValueError when the content
is malformed. -/
def readTaskFile (name : String) (l : List (String × FileContent)) : Except QueueError TaskRecord :=
  match findFile name l with
  | none => Except.error QueueError.notFound
  | some (FileContent.malformed _) => Except.error QueueError.parseError
  | some (FileContent.task t) => Except.ok t

/-- Body of `TaskQueue.complete_task` split at its two file mutations:
first `json.dump` into the completed directory, then
`processing_path.unlink()`.  On success it returns both the
intermediate state (after the dump, before the unlink — the instant a
crash would leave the record duplicated) and the final state.
`task['result']` is only assigned when the Python value is truthy. -/
def completeSteps (now : Nat) (taskId : String) (result : Option ProcessResult)
    (s : QueueState) : Except QueueError (QueueState × QueueState) :=
  let name := taskId ++ ".json"
  match readTaskFile name s.processing with
  | Except.error e => Except.error e
  | Except.ok t =>
      let updated :=
        { t with
          status := "completed"
          completedAt := some now
          result := match result with | some r => some r | none => t.result }
      let mid : QueueState := { s with completed := fsWrite s.completed name (FileContent.task updated) }
      let fin : QueueState := { mid with processing := removeFile name mid.processing }
      Except.ok (mid, fin)

/-- `TaskQueue.complete_task`: run the body; any error is caught by the
`except` clause, logged and swallowed, so the caller always gets a
normal return.  The second component is the exception propagated to
the caller — `none` in both branches, because the method re-raises
nothing. -/
def complete_task (now : Nat) (taskId : String) (result : Option ProcessResult)
    (s : QueueState) : QueueState × Option QueueError :=
  match completeSteps now taskId result s with
  | Except.ok (_, fin) => (fin, none)
  | Except.error _ => (s, none)

/-- Body of `TaskQueue.fail_task` split at its two file mutations,
mirroring `completeSteps`; `task['error'] = str(error)` is always
assigned. -/
def failSteps (now : Nat) (taskId : String) (errMsg : String)
    (s : QueueState) : Except QueueError (QueueState × QueueState) :=
  let name := taskId ++ ".json"
  match readTaskFile name s.processing with
  | Except.error e => Except.error e
  | Except.ok t =>
      let updated :=
        { t with
          status := "failed"
          failedAt := some now
          error := some errMsg }
      let mid : QueueState := { s with failed := fsWrite s.failed name (FileContent.task updated) }
      let fin : QueueState := { mid with processing := removeFile name mid.processing }
      Except.ok (mid, fin)

/-- `TaskQueue.fail_task`: same catch-all wrapper as `complete_task`. -/
def fail_task (now : Nat) (taskId : String) (errMsg : String)
    (s : QueueState) : QueueState × Option QueueError :=
  match failSteps now taskId errMsg s with
  | Except.ok (_, fin) => (fin, none)
  | Except.error _ => (s, none)

/-- Intermediate state of `complete_task` after the completed-copy dump
and before the processing unlink (projection of `completeSteps`). -/
def completeMid (now : Nat) (taskId : String) (result : Option ProcessResult)
    (s : QueueState) : Option QueueState :=
  match completeSteps now taskId result s with
  | Except.ok (mid, _) => some mid
  | Except.error _ => none

/-! ## Concurrent claiming

The only shared-state mutation inside `dequeue` before a task is
returned is the `task_file.rename(processing_path)` call; directory
reads do not mutate, so any interleaving of several claimants reduces
to the order in which their renames reach the filesystem.  A rename
succeeds exactly when the pending file still exists, and then removes
it atomically; a later rename of the same name raises
FileNotFoundError, which the claimant's inner `except` clause treats
as a skip. -/

/-- One atomic `task_file.rename(processing_path)` on the shared
queue state. -/
def renameToProcessing (name : String) (s : QueueState) : Except QueueError QueueState :=
  match findFile name s.pending with
  | none => Except.error QueueError.notFound
  | some c =>
      Except.ok
        { s with
          pending := removeFile name s.pending
          processing := fsWrite s.processing name c }

/-- Run the rename attempts of a list of claimants (identified by
worker ids, in the order the scheduler interleaves them) against the
same pending file.  Each result records whether that claimant's rename
succeeded, i.e. whether it receives the task; a `false` entry is the
FileNotFoundError miss that makes the claimant skip the file. -/
def runRenames (name : String) : List Nat → QueueState → List (Nat × Bool) × QueueState
  | [], s => ([], s)
  | w :: ws, s =>
      match renameToProcessing name s with
      | Except.ok s2 => ((w, true) :: (runRenames name ws s2).1, (runRenames name ws s2).2)
      | Except.error _ => ((w, false) :: (runRenames name ws s).1, (runRenames name ws s).2)

/-! ## Keyword analysis and the generation pipeline -/

/-- Characters of a Python string after `.lower()`. -/
def lowerChars (s : String) : List Char := s.data.map Char.toLower

/-- Boolean list-prefix test on characters. -/
def prefixOfChars : List Char → List Char → Bool
  | [], _ => true
  | _ :: _, [] => false
  | a :: as, b :: bs => a == b && prefixOfChars as bs

/-- Python `needle in hay` substring test. -/
def containsChars (needle : List Char) : List Char → Bool
  | [] => prefixOfChars needle []
  | c :: rest => prefixOfChars needle (c :: rest) || containsChars needle rest

/-- Python `any(word in prompt or word in title for word in words)`. -/
def anyKeyword (words : List String) (promptL titleL : List Char) : Bool :=
  words.any (fun w => containsChars w.data promptL || containsChars w.data titleL)

/-- One generation request derived from an epic
(`analyze_epic_for_assets` list element). -/
structure AssetRequest where
  type : String
  prompt : String
  description : String
  size : Nat × Nat
deriving Repr, DecidableEq

/-- `DesignerAgent.analyze_epic_for_assets`: keyword-driven request
derivation, with the unconditional general request when nothing
matched. -/
def analyze_epic_for_assets (baseStyle : String) (epic : Epic) : List AssetRequest :=
  let promptL := lowerChars epic.prompt
  let titleL := lowerChars epic.title
  let a1 :=
    if anyKeyword ["sprite", "character", "player", "snake"] promptL titleL then
      [{ type := "character"
         prompt := baseStyle ++ " game character sprite, " ++ epic.prompt ++ ", clean background, game asset"
         description := "Character sprite for " ++ epic.title
         size := (64, 64) }]
    else []
  let a2 :=
    if anyKeyword ["background", "scene", "environment", "map"] promptL titleL then
      [{ type := "background"
         prompt := baseStyle ++ " game background, " ++ epic.prompt ++ ", tileable, game environment"
         description := "Background for " ++ epic.title
         size := (800, 600) }]
    else []
  let a3 :=
    if anyKeyword ["ui", "button", "menu", "interface", "hud"] promptL titleL then
      [{ type := "ui"
         prompt := baseStyle ++ " game UI element, " ++ epic.prompt ++ ", clean design, user interface"
         description := "UI element for " ++ epic.title
         size := (128, 32) }]
    else []
  let a4 :=
    if anyKeyword ["icon", "item", "powerup", "food", "pickup"] promptL titleL then
      [{ type := "icon"
         prompt := baseStyle ++ " game icon, " ++ epic.prompt ++ ", small item, game asset"
         description := "Game icon for " ++ epic.title
         size := (32, 32) }]
    else []
  let assets := a1 ++ a2 ++ a3 ++ a4
  if assets.isEmpty then
    [{ type := "general"
       prompt := baseStyle ++ " game asset, " ++ epic.prompt ++ ", video game art"
       description := "Game asset for " ++ epic.title
       size := (128, 128) }]
  else assets

/-- In-memory image, mirroring the PIL attributes the code touches
(`mode`, `size`, the fill colour of `Image.new`). -/
structure PILImage where
  mode : String
  width : Nat
  height : Nat
  color : Nat × Nat × Nat := (0, 0, 0)
deriving Repr, DecidableEq

/-- Size table of `create_placeholder_image`. -/
def placeholderSize (assetType : String) : Nat × Nat :=
  if assetType = "character" then (64, 64)
  else if assetType = "background" then (800, 600)
  else if assetType = "ui" then (128, 32)
  else if assetType = "icon" then (32, 32)
  else (128, 128)

/-- Colour table of `create_placeholder_image`. -/
def placeholderColor (assetType : String) : Nat × Nat × Nat :=
  if assetType = "character" then (100, 149, 237)
  else if assetType = "background" then (135, 206, 235)
  else if assetType = "ui" then (169, 169, 169)
  else if assetType = "icon" then (255, 215, 0)
  else (128, 128, 128)

/-- `DesignerAgent.create_placeholder_image`: build a solid RGB image
from the two tables and save it under
`{asset_type}_{epic_id}_{int(time.time())}.png`; returns the image and
the saved path.  It performs no network call and, environmental
faults aside, no step of it can fail, so the model is total. -/
def create_placeholder_image (assetsDir assetType epicId : String) (now : Nat) :
    PILImage × String :=
  let size := placeholderSize assetType
  ({ mode := "RGB", width := size.1, height := size.2, color := placeholderColor assetType },
   assetsDir ++ "/" ++ assetType ++ "_" ++ epicId ++ "_" ++ toString now ++ ".png")

/-- `DesignerAgent.create_placeholder_assets`: keyword detection (note
the keyword lists are shorter than the ones in
`analyze_epic_for_assets`), then one placeholder per detected type. -/
def create_placeholder_assets (assetsDir : String) (epic : Epic) (now : Nat) : List Asset :=
  let promptL := lowerChars epic.prompt
  let titleL := lowerChars epic.title
  let t1 := if anyKeyword ["sprite", "character", "player"] promptL titleL then ["character"] else []
  let t2 := if anyKeyword ["background", "scene", "environment"] promptL titleL then ["background"] else []
  let t3 := if anyKeyword ["ui", "button", "menu", "interface"] promptL titleL then ["ui"] else []
  let t4 := if anyKeyword ["icon", "item", "powerup"] promptL titleL then ["icon"] else []
  let types0 := t1 ++ t2 ++ t3 ++ t4
  let types := if types0.isEmpty then ["general"] else types0
  types.map fun ty =>
    { type := ty
      path := (create_placeholder_image assetsDir ty epic.id now).2
      description := "Placeholder " ++ ty ++ " for " ++ epic.title }

/-- Provider dispatch inside the `generate_ai_assets` loop.  The two
network providers are strategy parameters returning the saved path or
`none` (their own handlers catch every failure and return `None`);
`local` and any unknown provider fall through to the placeholder. -/
def dispatchStrategy (openaiGen sdGen : AssetRequest → Option String)
    (provider assetsDir : String) (req : AssetRequest) (epicId : String) (now : Nat) :
    Option String :=
  if provider = "openai" then openaiGen req
  else if provider = "stable-diffusion" then sdGen req
  else if provider = "local" then some (create_placeholder_image assetsDir req.type epicId now).2
  else some (create_placeholder_image assetsDir req.type epicId now).2

/-- `DesignerAgent.generate_ai_assets`: derive the requests, dispatch
each to the selected provider, and keep an asset entry only for the
requests whose dispatch produced a path (`if asset_path:`).  The
task-level `except` fallback to placeholders is unreachable here
because every strategy call already returns instead of raising. -/
def generate_ai_assets (openaiGen sdGen : AssetRequest → Option String)
    (style provider assetsDir : String) (epic : Epic) (now : Nat) : List Asset :=
  (analyze_epic_for_assets style epic).filterMap fun req =>
    (dispatchStrategy openaiGen sdGen provider assetsDir req epic.id now).map fun path =>
      { type := req.type
        path := path
        description := req.description
        prompt := some req.prompt
        provider := some provider }

/-- `DesignerAgent.process_task`: placeholder assets when the provider
is disabled, AI pipeline otherwise; reports success with the produced
assets (the `except` branch that reports failure is reachable only
through exceptions the pure model has no source for). -/
def process_task (openaiGen sdGen : AssetRequest → Option String)
    (style provider assetsDir : String) (task : TaskRecord) (now : Nat) : ProcessResult :=
  let epic := task.epic
  let assets :=
    if provider = "disabled" then create_placeholder_assets assetsDir epic now
    else generate_ai_assets openaiGen sdGen style provider assetsDir epic now
  { success := true, assets := assets, error := none }

/-! ## save_image_data -/

/-- The resampling filter `save_image_data` passes to `img.resize`
(`Image.Resampling.LANCZOS`). -/
def lanczosFilter : String := "LANCZOS"

/-- Outcome of `DesignerAgent.save_image_data`: the normalized image,
the filename it is saved under, and which resampling filter (if any)
the resize step used. -/
structure SavedImage where
  image : PILImage
  filename : String
  resampleUsed : Option String
deriving Repr, DecidableEq

/-- `DesignerAgent.save_image_data`: convert to RGBA when the mode
differs, resize with LANCZOS when a target size is given and the
current size differs from it, save as
`{asset_type}_{epic_id}_{timestamp}.png`. -/
def save_image_data (img : PILImage) (assetType epicId : String)
    (targetSize : Option (Nat × Nat)) (now : Nat) : SavedImage :=
  let img1 := if img.mode ≠ "RGBA" then { img with mode := "RGBA" } else img
  let resized :=
    match targetSize with
    | some t =>
        if (img1.width, img1.height) ≠ t then
          (({ img1 with width := t.1, height := t.2 } : PILImage), some lanczosFilter)
        else (img1, none)
    | none => (img1, none)
  { image := resized.1
    filename := assetType ++ "_" ++ epicId ++ "_" ++ toString now ++ ".png"
    resampleUsed := resized.2 }

/-! ## Worker polling loop -/

/-- Sleep length of one `poll_for_tasks` iteration: the poll interval
normally, twice the poll interval after a caught iteration error
(the same constant every time — the code keeps no error counter). -/
def pollWait (pollMs : Nat) (errored : Bool) : Nat :=
  if errored then pollMs * 2 else pollMs

/-- The `while self.is_running` loop of `poll_for_tasks`, run over a
trace of iteration outcomes (`true` = the iteration raised and was
caught).  It emits one wait per outcome: an error is caught, logged
and followed by the same continuation as a success, never by loop
exit. -/
def pollLoop (pollMs : Nat) : List Bool → List Nat
  | [] => []
  | errored :: rest => pollWait pollMs errored :: pollLoop pollMs rest

/-! ## Concrete scenario data -/

/-- Payload of the happy-path scenario of section 8 of the spec. -/
def epicSnake : Epic :=
  { id := "t1", title := "Snake Sprite"
    prompt := "green pixel-art snake character", role := "designer" }

/-- The pending record of the happy-path scenario. -/
def task0 : TaskRecord :=
  { id := "t1", epic := epicSnake, status := "pending", createdAt := some 0 }

/-- Queue with exactly the happy-path task pending. -/
def s0Happy : QueueState :=
  { queueDir := "./data/tasks"
    pending := [("t1.json", FileContent.task task0)]
    processing := [], completed := [], failed := [] }

/-- The record `dequeue` produces for `task0` at time 5. -/
def claimedT1 : TaskRecord :=
  { id := "t1", epic := epicSnake, status := "processing", createdAt := some 0
    processedAt := some 5, processingPath := some ("./data/tasks/processing/t1.json") }

/-- Always-succeeding primary strategy for the happy-path scenario. -/
def okGen : AssetRequest → Option String :=
  fun req => some ("web-game/assets/" ++ req.type ++ "_t1_ai.png")

/-- Always-failing network strategy (every call swallowed into `None`),
for the total-outage scenarios. -/
def noGen : AssetRequest → Option String := fun _ => none

/-- Result of processing the claimed happy-path task with the openai
provider and a succeeding primary strategy. -/
def happyResult : ProcessResult :=
  process_task okGen okGen ("pixel-art") ("openai") ("web-game/assets") claimedT1 6

/-- Queue state after the happy-path dequeue and completion. -/
def happyFinal : QueueState :=
  (complete_task 7 ("t1") (some happyResult) (dequeue ("designer") 5 s0Happy).2).1

/-- Embedded status field of a task file, when it parses. -/
def fileStatus : FileContent → Option String
  | FileContent.task t => some t.status
  | FileContent.malformed _ => none

/-- A wrong-role record (scenario: wrong role). -/
def writerEpic : Epic :=
  { id := "w1", title := "Story Draft", prompt := "write the intro chapter", role := "writer" }

/-- Pending task of the wrong-role scenario. -/
def writerTask : TaskRecord :=
  { id := "w1", epic := writerEpic, status := "pending", createdAt := some 0 }

/-- Queue holding a writer task ahead of a designer task. -/
def sMixed : QueueState :=
  { queueDir := "./data/tasks"
    pending := [("w1.json", FileContent.task writerTask), ("t1.json", FileContent.task task0)]
    processing := [], completed := [], failed := [] }

/-- The record `dequeue` produces for `task0` at time 3. -/
def claimedMixed : TaskRecord :=
  { id := "t1", epic := epicSnake, status := "processing", createdAt := some 0
    processedAt := some 3, processingPath := some ("./data/tasks/processing/t1.json") }

/-- Expected state after claiming the designer task out of `sMixed`. -/
def sMixedAfter : QueueState :=
  { queueDir := "./data/tasks"
    pending := [("w1.json", FileContent.task writerTask)]
    processing := [("t1.json", FileContent.task claimedMixed)]
    completed := [], failed := [] }

/-- Queue holding one unparseable pending file next to a good one. -/
def sMal : QueueState :=
  { queueDir := "./data/tasks"
    pending := [("bad.json", FileContent.malformed ("not json")), ("t1.json", FileContent.task task0)]
    processing := [], completed := [], failed := [] }

/-- An already-completed (terminal) record. -/
def doneT1 : TaskRecord :=
  { id := "t1", epic := epicSnake, status := "completed", createdAt := some 0
    completedAt := some 8 }

/-- Queue whose only copy of t1 is terminal: nothing is processing. -/
def s0Term : QueueState :=
  { queueDir := "./data/tasks"
    pending := [], processing := []
    completed := [("t1.json", FileContent.task doneT1)], failed := [] }

/-- A record currently being processed. -/
def procT1 : TaskRecord :=
  { id := "t1", epic := epicSnake, status := "processing", createdAt := some 0
    processedAt := some 5, processingPath := some ("./data/tasks/processing/t1.json") }

/-- Queue with t1 claimed and in the processing partition. -/
def s0Proc : QueueState :=
  { queueDir := "./data/tasks"
    pending := [], processing := [("t1.json", FileContent.task procT1)]
    completed := [], failed := [] }

/-- Error component of a queue-method body outcome (`none` when the
body ran to completion without raising). -/
def stepsError {α : Type} : Except QueueError α → Option QueueError
  | Except.error e => some e
  | Except.ok _ => none

/-! ## Helper lemmas about the directory primitives -/

theorem countIn_removeFile_self (name : String) (l : List (String × FileContent)) :
    countIn name (removeFile name l) = 0 := by
  induction l with
  | nil => rfl
  | cons e rest ih =>
      by_cases h : e.1 = name <;> simp [removeFile, countIn, h, ih]

theorem countIn_removeFile_ne (n name : String) (l : List (String × FileContent))
    (h : n ≠ name) : countIn n (removeFile name l) = countIn n l := by
  induction l with
  | nil => rfl
  | cons e rest ih =>
      by_cases he : e.1 = name
      · have hn : ¬ name = n := fun hc => h hc.symm
        simp [removeFile, countIn, he, hn, ih]
      · simp [removeFile, countIn, he, ih]

theorem countIn_fsWrite_self (name : String) (l : List (String × FileContent))
    (c : FileContent) : countIn name (fsWrite l name c) = 1 := by
  simp [fsWrite, countIn, countIn_removeFile_self]

theorem countIn_fsWrite_ne (n name : String) (l : List (String × FileContent))
    (c : FileContent) (h : n ≠ name) : countIn n (fsWrite l name c) = countIn n l := by
  have : ¬ name = n := fun hc => h hc.symm
  simp [fsWrite, countIn, this, countIn_removeFile_ne n name l h]

theorem findFile_removeFile_self (name : String) (l : List (String × FileContent)) :
    findFile name (removeFile name l) = none := by
  induction l with
  | nil => rfl
  | cons e rest ih =>
      by_cases h : e.1 = name <;> simp [removeFile, findFile, h, ih]

theorem findFile_fsWrite_self (name : String) (l : List (String × FileContent))
    (c : FileContent) : findFile name (fsWrite l name c) = some c := by
  simp [fsWrite, findFile]

theorem findFile_some_countIn (name : String) (l : List (String × FileContent))
    (c : FileContent) (h : findFile name l = some c) : 1 ≤ countIn name l := by
  induction l with
  | nil => simp [findFile] at h
  | cons e rest ih =>
      by_cases he : e.1 = name
      · simp [countIn, he]
      · simp [findFile, he] at h
        simp [countIn, he]
        exact ih h

/-! ## Helper lemmas about the dequeue scan -/

theorem dequeueGo_role_eq (role : String) (l : List (String × FileContent))
    (name : String) (t : TaskRecord) (h : (dequeueGo role l).1 = some (name, t)) :
    t.epic.role = role := by
  induction l with
  | nil => simp [dequeueGo] at h
  | cons e rest ih =>
      match e with
      | (n, FileContent.malformed raw) =>
          simp [dequeueGo] at h
          exact ih h
      | (n, FileContent.task u) =>
          by_cases hr : u.epic.role = role
          · simp [dequeueGo, hr] at h
            rw [← h.2]
            exact hr
          · simp [dequeueGo, hr] at h
            exact ih h

theorem dequeueGo_keeps_task (role : String) (l : List (String × FileContent))
    (name : String) (u : TaskRecord)
    (hm : (name, FileContent.task u) ∈ l) (hne : ¬ u.epic.role = role) :
    (name, FileContent.task u) ∈ (dequeueGo role l).2 := by
  induction l with
  | nil => simp at hm
  | cons e rest ih =>
      match e with
      | (n, FileContent.malformed raw) =>
          rcases List.mem_cons.mp hm with h | h
          · exact absurd h.symm (by simp)
          · simp [dequeueGo]
            exact ih h
      | (n, FileContent.task v) =>
          by_cases hr : v.epic.role = role
          · rcases List.mem_cons.mp hm with h | h
            · exfalso
              apply hne
              have : u = v := by
                have := congrArg Prod.snd h
                simpa using this
              rw [this]; exact hr
            · simpa [dequeueGo, hr] using h
          · rcases List.mem_cons.mp hm with h | h
            · simp [dequeueGo, hr]
              left
              have h1 := congrArg Prod.fst h
              have h2 := congrArg Prod.snd h
              simp at h1 h2
              exact ⟨h1, h2⟩
            · simp [dequeueGo, hr]
              exact Or.inr (ih h)

theorem dequeueGo_keeps_malformed (role : String) (l : List (String × FileContent))
    (name raw : String) (hm : (name, FileContent.malformed raw) ∈ l) :
    (name, FileContent.malformed raw) ∈ (dequeueGo role l).2 := by
  induction l with
  | nil => simp at hm
  | cons e rest ih =>
      match e with
      | (n, FileContent.malformed r0) =>
          rcases List.mem_cons.mp hm with h | h
          · simp [dequeueGo]
            left
            have h1 := congrArg Prod.fst h
            have h2 := congrArg Prod.snd h
            simp at h1 h2
            exact ⟨h1, h2⟩
          · simp [dequeueGo]
            exact Or.inr (ih h)
      | (n, FileContent.task v) =>
          rcases List.mem_cons.mp hm with h | h
          · exact absurd (congrArg Prod.snd h) (by simp)
          · by_cases hr : v.epic.role = role
            · simpa [dequeueGo, hr] using h
            · simp [dequeueGo, hr]
              exact ih h

theorem dequeueGo_countIn_le (role : String) (l : List (String × FileContent)) (n : String) :
    countIn n (dequeueGo role l).2 ≤ countIn n l := by
  induction l with
  | nil => simp [dequeueGo]
  | cons e rest ih =>
      match e with
      | (nm, FileContent.malformed raw) =>
          simp only [dequeueGo, countIn]
          omega
      | (nm, FileContent.task t) =>
          by_cases hr : t.epic.role = role
          · simp only [dequeueGo, hr, if_pos, countIn]
            omega
          · simp only [dequeueGo, hr, if_neg, not_false_iff, countIn]
            omega

theorem dequeueGo_some_countIn (role : String) (l : List (String × FileContent))
    (name : String) (t : TaskRecord) (h : (dequeueGo role l).1 = some (name, t)) :
    countIn name (dequeueGo role l).2 + 1 = countIn name l := by
  induction l with
  | nil => simp [dequeueGo] at h
  | cons e rest ih =>
      match e with
      | (nm, FileContent.malformed raw) =>
          simp only [dequeueGo] at h ⊢
          have := ih h
          simp only [countIn]
          omega
      | (nm, FileContent.task u) =>
          by_cases hr : u.epic.role = role
          · simp only [dequeueGo, hr, if_pos] at h ⊢
            have hn : nm = name := by
              have := congrArg (fun o => Option.map Prod.fst o) h
              simpa using this
            simp only [countIn, hn, if_pos]
            omega
          · simp only [dequeueGo, hr, if_neg, not_false_iff] at h ⊢
            have := ih h
            simp only [countIn]
            omega

theorem dequeueGo_none_eq (role : String) (l : List (String × FileContent))
    (h : (dequeueGo role l).1 = none) : (dequeueGo role l).2 = l := by
  induction l with
  | nil => rfl
  | cons e rest ih =>
      match e with
      | (nm, FileContent.malformed raw) =>
          simp only [dequeueGo] at h ⊢
          rw [ih h]
      | (nm, FileContent.task u) =>
          by_cases hr : u.epic.role = role
          · simp [dequeueGo, hr] at h
          · simp only [dequeueGo, hr, if_neg, not_false_iff] at h ⊢
            rw [ih h]

/-! ## Helper lemmas about concurrent rename attempts -/

theorem runRenames_length (name : String) (ws : List Nat) (s : QueueState) :
    (runRenames name ws s).1.length = ws.length := by
  induction ws generalizing s with
  | nil => rfl
  | cons w ws ih =>
      cases hr : renameToProcessing name s with
      | ok s2 => simp [runRenames, hr, ih]
      | error e => simp [runRenames, hr, ih]

theorem runRenames_no_file (name : String) (ws : List Nat) (s : QueueState)
    (h : findFile name s.pending = none) :
    ((runRenames name ws s).1.countP (fun r => r.2)) = 0 := by
  induction ws with
  | nil => rfl
  | cons w ws ih =>
      have hr : renameToProcessing name s = Except.error QueueError.notFound := by
        simp [renameToProcessing, h]
      simp [runRenames, hr, List.countP_cons, ih]

/-! ## Helper lemmas about the pipeline -/

theorem length_pos_of_isEmpty_false {α : Type} (l : List α) (h : l.isEmpty = false) :
    1 ≤ l.length := by
  cases l with
  | nil => simp at h
  | cons a rest => simp

theorem ite_isEmpty_length_pos {α : Type} (l d : List α) (hd : 1 ≤ d.length) :
    1 ≤ (if l.isEmpty then d else l).length := by
  cases h : l.isEmpty with
  | true => simpa [h] using hd
  | false => simpa [h] using length_pos_of_isEmpty_false l h

theorem analyze_epic_nonempty (style : String) (epic : Epic) :
    1 ≤ (analyze_epic_for_assets style epic).length := by
  simp only [analyze_epic_for_assets]
  exact ite_isEmpty_length_pos _ _ (by simp)

theorem filterMap_length_of_isSome {α β : Type} (f : α → Option β) (l : List α)
    (h : ∀ x ∈ l, (f x).isSome) : (l.filterMap f).length = l.length := by
  induction l with
  | nil => rfl
  | cons a rest ih =>
      have ha := h a (List.mem_cons_self a rest)
      cases hf : f a with
      | none => rw [hf] at ha; simp at ha
      | some b =>
          simp only [List.filterMap_cons, hf, List.length_cons]
          rw [ih (fun x hx => h x (List.mem_cons_of_mem a hx))]

theorem pollLoop_all_le (pollMs : Nat) (l : List Bool) :
    (pollLoop pollMs l).all (fun w => decide (w ≤ pollMs * 2)) = true := by
  induction l with
  | nil => rfl
  | cons errored rest ih =>
      simp only [pollLoop, List.all_cons, ih, Bool.and_true, decide_eq_true_eq]
      cases errored
      · simp only [pollWait, if_neg Bool.false_ne_true]
        omega
      · simp [pollWait]

/-! ## Helper lemmas: partition-uniqueness preservation of each operation -/

theorem dequeue_preserves_unique (role : String) (now : Nat) (s : QueueState)
    (h : uniquePartitions s) : uniquePartitions (dequeue role now s).2 := by
  intro n
  unfold dequeue
  cases hq : dequeueGo role s.pending with
  | mk res rest =>
      cases res with
      | none =>
          have hrest : rest = s.pending := by
            have h1 : (dequeueGo role s.pending).1 = none := by rw [hq]
            have h2 := dequeueGo_none_eq role s.pending h1
            rw [hq] at h2
            exact h2
          simpa [partitionCount, hrest] using h n
      | some p =>
          match p with
          | (name, t) =>
              have h1 : (dequeueGo role s.pending).1 = some (name, t) := by rw [hq]
              have h2 : (dequeueGo role s.pending).2 = rest := by rw [hq]
              have hsome := dequeueGo_some_countIn role s.pending name t h1
              rw [h2] at hsome
              have hinv := h n
              simp only [partitionCount] at hinv ⊢
              by_cases hn : n = name
              · subst hn
                rw [countIn_fsWrite_self]
                have hle : countIn n rest ≤ countIn n s.pending := by
                  have := dequeueGo_countIn_le role s.pending n
                  rw [h2] at this
                  exact this
                omega
              · rw [countIn_fsWrite_ne n name s.processing _ hn]
                have hle : countIn n rest ≤ countIn n s.pending := by
                  have := dequeueGo_countIn_le role s.pending n
                  rw [h2] at this
                  exact this
                omega

theorem readTaskFile_ok_findFile (name : String) (l : List (String × FileContent))
    (t : TaskRecord) (h : readTaskFile name l = Except.ok t) :
    findFile name l = some (FileContent.task t) := by
  unfold readTaskFile at h
  cases hf : findFile name l with
  | none => rw [hf] at h; simp at h
  | some c =>
      cases c with
      | malformed raw => rw [hf] at h; simp at h
      | task u =>
          rw [hf] at h
          simp at h
          rw [h]

theorem complete_preserves_unique (now : Nat) (taskId : String)
    (res : Option ProcessResult) (s : QueueState) (h : uniquePartitions s) :
    uniquePartitions (complete_task now taskId res s).1 := by
  unfold complete_task completeSteps
  cases hr : readTaskFile (taskId ++ ".json") s.processing with
  | error e =>
      simp only [hr]
      exact h
  | ok t =>
      simp only [hr]
      intro n
      have hf := readTaskFile_ok_findFile _ _ _ hr
      have hcount := findFile_some_countIn _ _ _ hf
      have hinv := h n
      simp only [partitionCount] at hinv ⊢
      by_cases hn : n = taskId ++ ".json"
      · subst hn
        rw [countIn_removeFile_self, countIn_fsWrite_self]
        omega
      · rw [countIn_removeFile_ne n _ _ hn, countIn_fsWrite_ne n _ _ _ hn]
        omega

theorem fail_preserves_unique (now : Nat) (taskId errMsg : String)
    (s : QueueState) (h : uniquePartitions s) :
    uniquePartitions (fail_task now taskId errMsg s).1 := by
  unfold fail_task failSteps
  cases hr : readTaskFile (taskId ++ ".json") s.processing with
  | error e =>
      simp only [hr]
      exact h
  | ok t =>
      simp only [hr]
      intro n
      have hf := readTaskFile_ok_findFile _ _ _ hr
      have hcount := findFile_some_countIn _ _ _ hf
      have hinv := h n
      simp only [partitionCount] at hinv ⊢
      by_cases hn : n = taskId ++ ".json"
      · subst hn
        rw [countIn_removeFile_self, countIn_fsWrite_self]
        omega
      · rw [countIn_removeFile_ne n _ _ hn, countIn_fsWrite_ne n _ _ _ hn]
        omega

/-! ## Claim theorems -/

/-- C1: mutual exclusion of `claim`.  The only shared-state mutation a
claimant performs before receiving a task is the atomic
`task_file.rename`; directory reads do not mutate, so a race of
concurrent `dequeue(role)` callers on one pending file reduces to the
order in which their renames execute.  For every pending filename,
every queue state, and every interleaving order of any number of
claimants, at most one rename attempt succeeds — at most one claimant
receives the task — and each of the others is recorded as a
FileNotFoundError miss (a `false` outcome, one per claimant), which
`dequeue` treats as skipping the file rather than serving a stale
copy. -/
theorem claim_rename_mutual_exclusion (name : String) (ws : List Nat) (s : QueueState) :
    ((runRenames name ws s).1.countP (fun r => r.2)) ≤ 1
    ∧ (runRenames name ws s).1.length = ws.length := by
  constructor
  · induction ws generalizing s with
    | nil => simp [runRenames]
    | cons w ws ih =>
        cases hf : findFile name s.pending with
        | none =>
            have hr : renameToProcessing name s = Except.error QueueError.notFound := by
              simp [renameToProcessing, hf]
            have h0 := runRenames_no_file name ws s hf
            simp [runRenames, hr, List.countP_cons, h0]
        | some c =>
            have hr : renameToProcessing name s = Except.ok
                { s with
                  pending := removeFile name s.pending
                  processing := fsWrite s.processing name c } := by
              simp [renameToProcessing, hf]
            have h0 := runRenames_no_file name ws
              { s with
                pending := removeFile name s.pending
                processing := fsWrite s.processing name c }
              (findFile_removeFile_self name s.pending)
            simp [runRenames, hr, List.countP_cons, h0]
  · exact runRenames_length name ws s

/-- C2: role filtering.  `dequeue(role)` never returns a record whose
`epic.role` differs from the argument (every returned record satisfies
the role test), and every pending task of a different role stays in
the pending partition with its record byte-identical. -/
theorem dequeue_role_filtering (role : String) (now : Nat) (s : QueueState)
    (name : String) (u : TaskRecord)
    (hm : (name, FileContent.task u) ∈ s.pending) (hne : ¬ u.epic.role = role) :
    Option.all (fun t => t.epic.role == role) (dequeue role now s).1 = true
    ∧ (name, FileContent.task u) ∈ (dequeue role now s).2.pending := by
  have hkeep := dequeueGo_keeps_task role s.pending name u hm hne
  unfold dequeue
  cases hq : dequeueGo role s.pending with
  | mk res rest =>
      rw [hq] at hkeep
      cases res with
      | none => simpa using hkeep
      | some p =>
          match p with
          | (nm, t) =>
              have h1 : (dequeueGo role s.pending).1 = some (nm, t) := by rw [hq]
              have hrole := dequeueGo_role_eq role s.pending nm t h1
              constructor
              · simp [claimRecord, hrole]
              · simpa using hkeep

/-- C2 witness: a writer task next to a designer task; the designer
claim returns the designer record and leaves the writer record
untouched in pending. -/
theorem dequeue_role_filtering_witness :
    Option.all (fun t => t.epic.role == "designer") (dequeue ("designer") 3 sMixed).1 = true
    ∧ ("w1.json", FileContent.task writerTask) ∈ (dequeue ("designer") 3 sMixed).2.pending :=
  dequeue_role_filtering ("designer") 3 sMixed ("w1.json") writerTask
    (by decide) (by decide)

/-- C3 counterexample: with task t1 only present in the completed
partition (already terminal), `complete_task` and `fail_task` return
normally with no error surfaced to the caller — the internal
FileNotFoundError (third conjunct) is caught and only logged — so the
claim that a NotFoundError is surfaced to the caller is false; the
stored records are indeed unaltered. -/
theorem complete_terminal_not_surfaced_cex :
    complete_task 9 ("t1") (some { success := true }) s0Term = (s0Term, none)
    ∧ fail_task 9 ("t1") ("late") s0Term = (s0Term, none)
    ∧ stepsError (completeSteps 9 ("t1") (some { success := true }) s0Term)
        = some QueueError.notFound := by decide

/-- C3 amended: calling `complete`/`fail` for a task id with no file in
the processing partition (in particular one already terminal) alters
no stored record in any partition and returns normally; the underlying
NotFoundError is caught and logged inside the queue, not surfaced to
the caller. -/
theorem complete_fail_missing_silent (now now2 : Nat) (taskId errMsg : String)
    (res : Option ProcessResult) (s : QueueState)
    (h : findFile (taskId ++ ".json") s.processing = none) :
    complete_task now taskId res s = (s, none)
    ∧ fail_task now2 taskId errMsg s = (s, none) := by
  have hr : readTaskFile (taskId ++ ".json") s.processing
      = Except.error QueueError.notFound := by
    simp [readTaskFile, h]
  constructor
  · simp [complete_task, completeSteps, hr]
  · simp [fail_task, failSteps, hr]

/-- C3 witness: the amended statement evaluated on the terminal-only
queue state. -/
theorem complete_fail_missing_silent_witness :
    findFile ("t1" ++ ".json") s0Term.processing = none
    ∧ (complete_task 9 ("t1") (some { success := true }) s0Term = (s0Term, none)
       ∧ fail_task 10 ("t1") ("late") s0Term = (s0Term, none)) :=
  ⟨by decide,
   complete_fail_missing_silent 9 10 ("t1") ("late") (some { success := true }) s0Term (by decide)⟩

/-- C4 counterexample: inside `complete_task` the completed copy is
written before the processing copy is unlinked; at that intermediate
instant (the state `completeSteps` exposes between its two file
mutations) the id t1 is visible in two partitions at once —
`partitionCount` is 2, not 1 — so the claim that the invariant holds
after every intermediate step is false. -/
theorem complete_midstep_two_partitions_cex :
    (completeMid 9 ("t1") none s0Proc).map (fun m => partitionCount m ("t1.json")) = some 2 := by
  decide

/-- C4 amended: the partition-uniqueness invariant holds at operation
boundaries: each of `dequeue`, `complete_task` and `fail_task` maps a
state in which every id is in at most one partition to another such
state (the violation is confined to the documented window inside
`complete`/`fail` between the terminal write and the processing
unlink). -/
theorem queue_ops_unique_partition_boundaries (s : QueueState) (h : uniquePartitions s)
    (role : String) (now now2 now3 : Nat) (id2 id3 errMsg : String)
    (res : Option ProcessResult) :
    uniquePartitions (dequeue role now s).2
    ∧ uniquePartitions (complete_task now2 id2 res s).1
    ∧ uniquePartitions (fail_task now3 id3 errMsg s).1 :=
  ⟨dequeue_preserves_unique role now s h,
   complete_preserves_unique now2 id2 res s h,
   fail_preserves_unique now3 id3 errMsg s h⟩

theorem s0Happy_unique : uniquePartitions s0Happy := by
  intro n
  by_cases h : ("t1.json" : String) = n <;>
    simp [partitionCount, countIn, s0Happy, h]

/-- C4 witness: the amended statement evaluated on the happy-path
queue state. -/
theorem queue_ops_unique_partition_boundaries_witness :
    uniquePartitions s0Happy
    ∧ (uniquePartitions (dequeue ("designer") 5 s0Happy).2
       ∧ uniquePartitions (complete_task 7 ("t1") none s0Happy).1
       ∧ uniquePartitions (fail_task 7 ("t1") ("late") s0Happy).1) :=
  ⟨s0Happy_unique,
   queue_ops_unique_partition_boundaries s0Happy s0Happy_unique ("designer") 5 7 7
     ("t1") ("t1") ("late") none⟩

/-- C5 counterexample: for the snake-sprite epic exactly one request is
derived, yet with provider `openai` and every network strategy failing
(returning no content, as their internal handlers do) the pipeline
yields zero assets — there is no terminal placeholder step for a
request whose strategy call returned `None` — refuting the claim of at
least one normalized output per request. -/
theorem pipeline_totality_cex :
    (analyze_epic_for_assets ("pixel-art") epicSnake).length = 1
    ∧ generate_ai_assets noGen noGen ("pixel-art") ("openai") ("web-game/assets") epicSnake 0
        = [] := by decide

/-- C5 amended: a request whose provider strategy returns no content is
skipped and yields no asset; the pipeline produces one asset per
derived request only when the provider is not one of the two network
providers (then every request goes to the total placeholder
generator), and request derivation itself always yields at least one
request. -/
theorem pipeline_placeholder_totality (openaiGen sdGen : AssetRequest → Option String)
    (style provider assetsDir : String) (epic : Epic) (now : Nat)
    (h1 : ¬ provider = "openai") (h2 : ¬ provider = "stable-diffusion") :
    (generate_ai_assets openaiGen sdGen style provider assetsDir epic now).length
      = (analyze_epic_for_assets style epic).length
    ∧ 1 ≤ (analyze_epic_for_assets style epic).length := by
  constructor
  · unfold generate_ai_assets
    apply filterMap_length_of_isSome
    intro req hreq
    by_cases hl : provider = "local" <;>
      simp [dispatchStrategy, h1, h2, hl]
  · exact analyze_epic_nonempty style epic

/-- C5 witness: the amended statement evaluated with the `local`
provider and failing network strategies. -/
theorem pipeline_placeholder_totality_witness :
    ¬ ("local" : String) = "openai" ∧ ¬ ("local" : String) = "stable-diffusion"
    ∧ ((generate_ai_assets noGen noGen ("pixel-art") ("local") ("web-game/assets") epicSnake 0).length
         = (analyze_epic_for_assets ("pixel-art") epicSnake).length
       ∧ 1 ≤ (analyze_epic_for_assets ("pixel-art") epicSnake).length) :=
  ⟨by decide, by decide,
   pipeline_placeholder_totality noGen noGen ("pixel-art") ("local") ("web-game/assets")
     epicSnake 0 (by decide) (by decide)⟩

/-- C6: happy-path scenario.  For the payload
title "Snake Sprite" / prompt "green pixel-art snake character",
request derivation yields exactly one request of type character sized
64x64; claiming the pending task with role designer succeeds, the
openai provider with a succeeding primary strategy produces exactly
one character asset, and after `complete` the record sits in the
completed partition with status completed and is gone from
processing. -/
theorem happy_path_scenario :
    ((analyze_epic_for_assets ("pixel-art") epicSnake).map (fun r => (r.type, r.size)))
        = [(("character" : String), ((64, 64) : Nat × Nat))]
    ∧ (dequeue ("designer") 5 s0Happy).1 = some claimedT1
    ∧ happyResult.success = true
    ∧ happyResult.assets.map Asset.type = [("character" : String)]
    ∧ (findFile ("t1.json") happyFinal.completed).map fileStatus
        = some (some ("completed"))
    ∧ findFile ("t1.json") happyFinal.processing = none := by decide

/-- C7 counterexample: with the default 2000 ms poll interval and two
consecutive iteration errors, the loop waits 4000 then 4000 — the wait
after the second error is not double the previous wait, so the claimed
exponential backoff does not occur. -/
theorem backoff_not_doubling_cex :
    (pollLoop 2000 [true, true])[0]? = some 4000
    ∧ (pollLoop 2000 [true, true])[1]? = some 4000
    ∧ ¬ ((4000 : Nat) = 2 * 4000) := by decide

/-- C7 amended: after an iteration error the loop waits a constant
twice the poll interval — the same wait after consecutive errors, not
exponential growth — so every wait is bounded by twice the poll
interval, and an errored iteration is followed by exactly the same
loop continuation as a successful one (an error never terminates the
loop). -/
theorem error_backoff_constant_bounded (pollMs : Nat) (errored : Bool) (rest : List Bool) :
    pollLoop pollMs (errored :: rest) = pollWait pollMs errored :: pollLoop pollMs rest
    ∧ pollWait pollMs true = pollMs * 2
    ∧ (pollLoop pollMs (errored :: rest)).all (fun w => decide (w ≤ pollMs * 2)) = true :=
  ⟨rfl, rfl, pollLoop_all_le pollMs (errored :: rest)⟩

/-- C8: normalization in `save_image_data`.  For every decoded image
and every specified target size — no restriction on the incoming mode
or size — the saved image is in RGBA mode and has exactly the target
size, and the LANCZOS resampling filter is used precisely when the
incoming size differs from the target (an image that already arrives
at the target size, the normal case for the stable-diffusion
provider, undergoes only the RGBA conversion and no resample). -/
theorem save_image_normalizes (img : PILImage) (assetType epicId : String)
    (w h now : Nat) :
    (save_image_data img assetType epicId (some (w, h)) now).image.mode = "RGBA"
    ∧ (save_image_data img assetType epicId (some (w, h)) now).image.width = w
    ∧ (save_image_data img assetType epicId (some (w, h)) now).image.height = h
    ∧ (save_image_data img assetType epicId (some (w, h)) now).resampleUsed
        = (if (img.width, img.height) = (w, h) then none else some lanczosFilter) := by
  by_cases hsz : (img.width, img.height) = (w, h)
  · have hw : img.width = w := congrArg Prod.fst hsz
    have hh : img.height = h := congrArg Prod.snd hsz
    by_cases hm : img.mode = "RGBA" <;>
      simp [save_image_data, hm, hsz, hw, hh]
  · by_cases hm : img.mode = "RGBA" <;>
      simp [save_image_data, hm, hsz]

/-- C9 counterexample: the record `dequeue` returns (and stores in the
processing file) carries the field `processingPath` holding the
processing-partition path — partition location IS expressed as a
record field, and the role lives under the nested `epic` object rather
than at top level — so the claimed schema is false. -/
theorem processing_path_in_record_cex :
    ((dequeue ("designer") 5 s0Happy).1.map (fun t => t.processingPath))
      = some (some ("./data/tasks/processing/t1.json")) := by decide

/-- C9 amended: task records nest id/title/prompt/role under `epic`
(not a top-level `role`/`payload`), and the record `dequeue` rewrites
carries status processing, the claim timestamp, and a
`processingPath` field that mirrors the processing-partition location
of the file that indeed holds this record. -/
theorem dequeue_rewrites_record_schema (role : String) (now : Nat) (s : QueueState)
    (name : String) (t : TaskRecord) (rest : List (String × FileContent))
    (hq : dequeueGo role s.pending = (some (name, t), rest)) :
    (dequeue role now s).1 = some (claimRecord t now s.queueDir name)
    ∧ (claimRecord t now s.queueDir name).status = "processing"
    ∧ (claimRecord t now s.queueDir name).processedAt = some now
    ∧ (claimRecord t now s.queueDir name).processingPath
        = some (s.queueDir ++ "/processing/" ++ name)
    ∧ (claimRecord t now s.queueDir name).epic.role = role
    ∧ findFile name (dequeue role now s).2.processing
        = some (FileContent.task (claimRecord t now s.queueDir name)) := by
  have h1 : (dequeueGo role s.pending).1 = some (name, t) := by rw [hq]
  have hrole := dequeueGo_role_eq role s.pending name t h1
  unfold dequeue
  rw [hq]
  refine ⟨rfl, rfl, rfl, rfl, hrole, ?_⟩
  simpa using findFile_fsWrite_self name s.processing (FileContent.task (claimRecord t now s.queueDir name))

/-- C9 witness: the amended statement evaluated on the happy-path
queue state. -/
theorem dequeue_rewrites_record_schema_witness :
    (dequeue ("designer") 5 s0Happy).1 = some (claimRecord task0 5 s0Happy.queueDir ("t1.json"))
    ∧ (claimRecord task0 5 s0Happy.queueDir ("t1.json")).status = "processing"
    ∧ (claimRecord task0 5 s0Happy.queueDir ("t1.json")).processedAt = some 5
    ∧ (claimRecord task0 5 s0Happy.queueDir ("t1.json")).processingPath
        = some (s0Happy.queueDir ++ "/processing/" ++ "t1.json")
    ∧ (claimRecord task0 5 s0Happy.queueDir ("t1.json")).epic.role = "designer"
    ∧ findFile ("t1.json") (dequeue ("designer") 5 s0Happy).2.processing
        = some (FileContent.task (claimRecord task0 5 s0Happy.queueDir ("t1.json"))) :=
  dequeue_rewrites_record_schema ("designer") 5 s0Happy ("t1.json") task0 [] (by decide)

/-- C10: no queue operation ever propagates an exception to its
caller: `complete_task` and `fail_task` always return with no
propagated error (their catch-all handlers swallow every failure,
including a missing or malformed processing file), and a pending file
that cannot be parsed is skipped by `dequeue` and left in the pending
partition unmodified (`dequeue` itself totally returns a record or
none by construction of its wrapper). -/
theorem queue_ops_never_raise (role : String) (now : Nat) (s : QueueState)
    (taskId errMsg : String) (res : Option ProcessResult) (name raw : String)
    (hm : (name, FileContent.malformed raw) ∈ s.pending) :
    (complete_task now taskId res s).2 = none
    ∧ (fail_task now taskId errMsg s).2 = none
    ∧ (name, FileContent.malformed raw) ∈ (dequeue role now s).2.pending := by
  refine ⟨?_, ?_, ?_⟩
  · unfold complete_task
    cases completeSteps now taskId res s with
    | ok p => match p with | (mid, fin) => rfl
    | error e => rfl
  · unfold fail_task
    cases failSteps now taskId errMsg s with
    | ok p => match p with | (mid, fin) => rfl
    | error e => rfl
  · have hkeep := dequeueGo_keeps_malformed role s.pending name raw hm
    unfold dequeue
    cases hq : dequeueGo role s.pending with
    | mk oRes rest =>
        rw [hq] at hkeep
        cases oRes with
        | none => simpa using hkeep
        | some p =>
            match p with
            | (nm, t) => simpa using hkeep

/-- C10 witness: a queue with one unparseable pending file; the
operations return with no propagated error and the malformed file
stays pending. -/
theorem queue_ops_never_raise_witness :
    (complete_task 4 ("zzz") none sMal).2 = none
    ∧ (fail_task 4 ("zzz") ("boom") sMal).2 = none
    ∧ ("bad.json", FileContent.malformed ("not json")) ∈ (dequeue ("designer") 4 sMal).2.pending :=
  queue_ops_never_raise ("designer") 4 sMal ("zzz") ("boom") none ("bad.json") ("not json")
    (List.mem_cons_self _ _)
